import Mathlib

/-!
Verification of the instant-acme ACME client core (src/lib.rs) against its
specification. Rust strings and byte buffers are modelled as lists of bytes
(`RStr`); HTTP I/O is modelled by an explicit script of responses consumed in
order, together with a log of the requests sent. External crates (ring,
serde_json, base64, hyper) are modelled by executable Lean functions; the
repository's own serialization module (types.rs) is not part of the sources
and is modelled from the specification where needed, marked
`Modelled from the spec:` in the doc comments.
-/

namespace InstantAcme

/-- Bytes of a Rust `String` / `Vec<u8>` / `&[u8]`, each entry intended `< 256`. -/
abbrev RStr := List Nat

/-- Bytes of an ASCII string literal (used for `&'static str` error messages,
header names and URLs appearing in the source). -/
def ascii (s : String) : RStr := s.data.map Char.toNat

/-- Is `b` a UTF-8 continuation byte (`0x80..=0xBF`)? -/
def isCont (b : Nat) : Bool := 0x80 ≤ b && b ≤ 0xBF

/-- UTF-8 validity of a byte sequence, as checked by Rust's
`String::from_utf8` (rejects overlong encodings, surrogates, and values
above U+10FFFF). -/
def validUtf8 : List Nat → Bool
  | [] => true
  | b :: rest =>
    if b < 0x80 then validUtf8 rest
    else if b < 0xC2 then false
    else if b ≤ 0xDF then
      match rest with
      | b1 :: rest2 => isCont b1 && validUtf8 rest2
      | [] => false
    else if b ≤ 0xEF then
      match rest with
      | b1 :: b2 :: rest2 =>
        (if b = 0xE0 then 0xA0 ≤ b1 && b1 ≤ 0xBF
         else if b = 0xED then 0x80 ≤ b1 && b1 ≤ 0x9F
         else isCont b1) && isCont b2 && validUtf8 rest2
      | _ => false
    else if b ≤ 0xF4 then
      match rest with
      | b1 :: b2 :: b3 :: rest2 =>
        (if b = 0xF0 then 0x90 ≤ b1 && b1 ≤ 0xBF
         else if b = 0xF4 then 0x80 ≤ b1 && b1 ≤ 0x8F
         else isCont b1) && isCont b2 && isCont b3 && validUtf8 rest2
      | _ => false
    else false

/-- Rust `String::from_utf8` on a byte vector: the same bytes if they are
valid UTF-8, otherwise an error (modelled as `none`). -/
def string_from_utf8 (bs : RStr) : Option RStr :=
  if validUtf8 bs then some bs else none

/-- The base64url alphabet: value `0..63` to ASCII code. -/
def b64Char (n : Nat) : Nat :=
  if n < 26 then 65 + n
  else if n < 52 then 97 + (n - 26)
  else if n < 62 then 48 + (n - 52)
  else if n = 62 then 45
  else 95

/-- Inverse of the base64url alphabet: ASCII code to value `0..63`. -/
def b64Val (c : Nat) : Option Nat :=
  if 65 ≤ c && c ≤ 90 then some (c - 65)
  else if 97 ≤ c && c ≤ 122 then some (c - 71)
  else if 48 ≤ c && c ≤ 57 then some (c + 4)
  else if c = 45 then some 62
  else if c = 95 then some 63
  else none

/-- `base64::BASE64_URL_SAFE_NO_PAD.encode`: base64url without padding. -/
def base64urlEncode : RStr → RStr
  | [] => []
  | [b1] => [b64Char (b1 / 4), b64Char (b1 % 4 * 16)]
  | [b1, b2] => [b64Char (b1 / 4), b64Char (b1 % 4 * 16 + b2 / 16), b64Char (b2 % 16 * 4)]
  | b1 :: b2 :: b3 :: rest =>
    b64Char (b1 / 4) :: b64Char (b1 % 4 * 16 + b2 / 16) ::
      b64Char (b2 % 16 * 4 + b3 / 64) :: b64Char (b3 % 64) :: base64urlEncode rest

/-- `base64::BASE64_URL_SAFE_NO_PAD.decode`: rejects characters outside the
alphabet, a trailing group of one character, and nonzero trailing bits. -/
def base64urlDecode : RStr → Option RStr
  | [] => some []
  | [_] => none
  | [c1, c2] => do
    let v1 ← b64Val c1
    let v2 ← b64Val c2
    if v2 % 16 = 0 then some [v1 * 4 + v2 / 16] else none
  | [c1, c2, c3] => do
    let v1 ← b64Val c1
    let v2 ← b64Val c2
    let v3 ← b64Val c3
    if v3 % 4 = 0 then some [v1 * 4 + v2 / 16, v2 % 16 * 16 + v3 / 4] else none
  | c1 :: c2 :: c3 :: c4 :: rest => do
    let v1 ← b64Val c1
    let v2 ← b64Val c2
    let v3 ← b64Val c3
    let v4 ← b64Val c4
    let tail ← base64urlDecode rest
    some ((v1 * 4 + v2 / 16) :: (v2 % 16 * 16 + v3 / 4) :: (v3 % 4 * 64 + v4) :: tail)

theorem b64Val_b64Char {n : Nat} (h : n < 64) : b64Val (b64Char n) = some n := by
  revert h; revert n; decide

/-- Round-trip of base64url on byte vectors. -/
theorem base64urlDecode_encode (bs : RStr) (h : ∀ b ∈ bs, b < 256) :
    base64urlDecode (base64urlEncode bs) = some bs := by
  induction bs using base64urlEncode.induct with
  | case1 => simp [base64urlEncode, base64urlDecode]
  | case2 b1 =>
    have hb1 : b1 < 256 := h b1 (by simp)
    simp only [base64urlEncode, base64urlDecode]
    rw [b64Val_b64Char (by omega), b64Val_b64Char (by omega)]
    simp only [Option.bind_eq_bind, Option.some_bind]
    rw [if_pos (Nat.mul_mod_left (b1 % 4) 16)]
    refine congrArg some (congrArg₂ List.cons ?_ rfl)
    rw [Nat.mul_div_cancel _ (by norm_num : 0 < 16)]; omega
  | case3 b1 b2 =>
    have hb1 : b1 < 256 := h b1 (by simp)
    have hb2 : b2 < 256 := h b2 (by simp)
    simp only [base64urlEncode, base64urlDecode]
    rw [b64Val_b64Char (by omega), b64Val_b64Char (by omega), b64Val_b64Char (by omega)]
    simp only [Option.bind_eq_bind, Option.some_bind]
    rw [if_pos (Nat.mul_mod_left (b2 % 16) 4)]
    refine congrArg some (congrArg₂ List.cons ?_ (congrArg₂ List.cons ?_ rfl))
    · rw [mul_comm (b1 % 4) 16, Nat.mul_add_div (by norm_num : 0 < 16)]; omega
    · rw [mul_comm (b1 % 4) 16, Nat.mul_add_mod,
        Nat.mul_div_cancel _ (by norm_num : 0 < 4)]; omega
  | case4 b1 b2 b3 rest ih =>
    have hb1 : b1 < 256 := h b1 (by simp)
    have hb2 : b2 < 256 := h b2 (by simp)
    have hb3 : b3 < 256 := h b3 (by simp)
    have hrest : ∀ b ∈ rest, b < 256 := fun b hb => h b (by simp [hb])
    simp only [base64urlEncode, base64urlDecode]
    rw [b64Val_b64Char (by omega), b64Val_b64Char (by omega), b64Val_b64Char (by omega),
      b64Val_b64Char (by omega), ih hrest]
    simp only [Option.bind_eq_bind, Option.some_bind]
    refine congrArg some
      (congrArg₂ List.cons ?_ (congrArg₂ List.cons ?_ (congrArg₂ List.cons ?_ rfl)))
    · rw [mul_comm (b1 % 4) 16, Nat.mul_add_div (by norm_num : 0 < 16)]; omega
    · rw [mul_comm (b1 % 4) 16, Nat.mul_add_mod, mul_comm (b2 % 16) 4,
        Nat.mul_add_div (by norm_num : 0 < 4)]; omega
    · rw [mul_comm (b2 % 16) 4, Nat.mul_add_mod]; omega

/-! SHA-256 (FIPS 180-4), modelling `ring::digest::digest(&SHA256, _)` and the
hash inside `ring::hmac`/thumbprints. Words are `Nat` reduced mod `2^32`. -/

/-- Truncate to a 32-bit word. -/
def w32 (n : Nat) : Nat := n % 4294967296

/-- Right rotation of a 32-bit word. -/
def rotr (n x : Nat) : Nat := w32 (x / 2 ^ n + x % 2 ^ n * 2 ^ (32 - n))

def bigSigma0 (x : Nat) : Nat := rotr 2 x ^^^ rotr 13 x ^^^ rotr 22 x

def bigSigma1 (x : Nat) : Nat := rotr 6 x ^^^ rotr 11 x ^^^ rotr 25 x

def smallSigma0 (x : Nat) : Nat := rotr 7 x ^^^ rotr 18 x ^^^ x / 2 ^ 3

def smallSigma1 (x : Nat) : Nat := rotr 17 x ^^^ rotr 19 x ^^^ x / 2 ^ 10

def chF (x y z : Nat) : Nat := x &&& y ^^^ (4294967295 - w32 x) &&& z

def majF (x y z : Nat) : Nat := x &&& y ^^^ x &&& z ^^^ y &&& z

/-- The 64 SHA-256 round constants (FIPS 180-4 §4.2.2), in decimal. -/
def sha256K : List Nat :=
  [1116352408, 1899447441, 3049323471, 3921009573, 961987163, 1508970993,
   2453635748, 2870763221, 3624381080, 310598401, 607225278, 1426881987,
   1925078388, 2162078206, 2614888103, 3248222580, 3835390401, 4022224774,
   264347078, 604807628, 770255983, 1249150122, 1555081692, 1996064986,
   2554220882, 2821834349, 2952996808, 3210313671, 3336571891, 3584528711,
   113926993, 338241895, 666307205, 773529912, 1294757372, 1396182291,
   1695183700, 1986661051, 2177026350, 2456956037, 2730485921, 2820302411,
   3259730800, 3345764771, 3516065817, 3600352804, 4094571909, 275423344,
   430227734, 506948616, 659060556, 883997877, 958139571, 1322822218,
   1537002063, 1747873779, 1955562222, 2024104815, 2227730452, 2361852424,
   2428436474, 2756734187, 3204031479, 3329325298]

/-- The SHA-256 initial hash value (FIPS 180-4 §5.3.3), in decimal. -/
def sha256H0 : List Nat :=
  [1779033703, 3144134277, 1013904242, 2773480762,
   1359893119, 2600822924, 528734635, 1541459225]

/-- `k` big-endian bytes of `n`. -/
def toBytesBE : Nat → Nat → List Nat
  | 0, _ => []
  | k + 1, n => toBytesBE k (n / 256) ++ [n % 256]

/-- SHA-256 message padding: `0x80`, zeros, then the 64-bit bit length. -/
def sha256pad (msg : List Nat) : List Nat :=
  let l := msg.length
  msg ++ 128 :: List.replicate ((64 - (l + 9) % 64) % 64) 0 ++ toBytesBE 8 (8 * l)

/-- Group bytes into big-endian 32-bit words. -/
def wordsOf : List Nat → List Nat
  | a :: b :: c :: d :: rest => (a * 16777216 + b * 65536 + c * 256 + d) :: wordsOf rest
  | _ => []

/-- Extend the 16-word block to the 64-word message schedule (`n` extension
steps). -/
def extendWords (ws : List Nat) : Nat → List Nat
  | 0 => ws
  | n + 1 =>
    let ws := extendWords ws n
    let i := ws.length
    ws ++ [w32 (ws.getD (i - 16) 0 + smallSigma0 (ws.getD (i - 15) 0) +
      ws.getD (i - 7) 0 + smallSigma1 (ws.getD (i - 2) 0))]

/-- One SHA-256 compression round; `kw` is the round constant plus the
schedule word. -/
def sha256round (st : List Nat) (kw : Nat) : List Nat :=
  match st with
  | [a, b, c, d, e, f, g, hh] =>
    let t1 := w32 (hh + bigSigma1 e + chF e f g + kw)
    let t2 := w32 (bigSigma0 a + majF a b c)
    [w32 (t1 + t2), a, b, c, w32 (d + t1), e, f, g]
  | st => st

/-- Compress one 64-byte block into the running hash. -/
def compressBlock (h : List Nat) (block : List Nat) : List Nat :=
  let ws := extendWords (wordsOf block) 48
  let st := (List.zipWith (fun k w => w32 (k + w)) sha256K ws).foldl sha256round h
  List.zipWith (fun x y => w32 (x + y)) h st

/-- Fold the compression function over successive 64-byte blocks. -/
def sha256blocks (h : List Nat) (bs : List Nat) : List Nat :=
  if bs = [] then h
  else sha256blocks (compressBlock h (bs.take 64)) (bs.drop 64)
termination_by bs.length
decreasing_by
  simp only [List.length_drop]
  have : bs ≠ [] := by assumption
  have : 0 < bs.length := List.length_pos.mpr this
  omega

/-- SHA-256 digest of a byte sequence, as 32 bytes. -/
def sha256 (msg : List Nat) : List Nat :=
  ((sha256blocks sha256H0 (sha256pad msg)).map (toBytesBE 4)).flatten

/-! ## Data model

Response-body schemas (`OrderState`, `Challenge`, `Authorization`, `Problem`)
and the JOSE types live in the repository's types.rs, which is not among the
sources; their shapes are modelled from the specification (§3, §4.1, §4.2). -/

/-- Modelled from the spec (§3): types.rs `OrderStatus`. -/
inductive OrderStatus where
  | pending | ready | processing | valid | invalid
deriving DecidableEq, Repr

/-- Modelled from the spec (§3): types.rs `AuthorizationStatus`. -/
inductive AuthorizationStatus where
  | pending | valid | invalid | revoked | expired | deactivated
deriving DecidableEq, Repr

/-- Modelled from the spec (§3): types.rs `ChallengeType`. -/
inductive ChallengeType where
  | http01 | dns01 | tlsAlpn01
deriving DecidableEq, Repr

/-- Modelled from the spec (§3): challenge status per RFC 8555 §8. -/
inductive ChallengeStatus where
  | pending | processing | valid | invalid
deriving DecidableEq, Repr

/-- Modelled from the spec (§3): types.rs `Problem`, the RFC 7807 document. -/
structure Problem where
  ptype : Option RStr
  detail : Option RStr
  status : Option Nat
deriving DecidableEq, Repr

/-- Modelled from the spec (§3): types.rs `OrderState`. -/
structure OrderState where
  status : OrderStatus
  authorizations : List RStr
  finalize : RStr
  certificate : Option RStr
  error : Option Problem
deriving DecidableEq, Repr

/-- Modelled from the spec (§3): types.rs `Identifier` (only `Dns`). -/
inductive Identifier where
  | dns (value : RStr)
deriving DecidableEq, Repr

/-- Modelled from the spec (§3): types.rs `Challenge`. -/
structure Challenge where
  ctype : ChallengeType
  url : RStr
  token : RStr
  status : ChallengeStatus
deriving DecidableEq, Repr

/-- Modelled from the spec (§3): types.rs `Authorization`. -/
structure Authorization where
  status : AuthorizationStatus
  identifier : Identifier
  challenges : List Challenge
deriving DecidableEq, Repr

/-- Modelled from the spec (§3): types.rs `DirectoryUrls`. -/
structure DirectoryUrls where
  new_nonce : RStr
  new_account : RStr
  new_order : RStr
deriving DecidableEq, Repr

/-- Modelled from the spec (§3): types.rs `NewOrder` request. -/
structure NewOrder where
  identifiers : List Identifier
deriving DecidableEq, Repr

/-- Modelled from the spec (§3): types.rs `NewAccount` request. -/
structure NewAccount where
  contact : List RStr
  terms_of_service_agreed : Bool
  only_return_existing : Bool
deriving DecidableEq, Repr

/-- Modelled from the spec (§4.1): types.rs `SigningAlgorithm`. -/
inductive SigningAlgorithm where
  | es256 | hs256
deriving DecidableEq, Repr

/-- Modelled from the spec: `ring::signature::EcdsaKeyPair` is external; a
parsed key pair is represented by the PKCS#8 DER bytes it was parsed from
(the spec's §3 invariant: the retained DER is a lossless image of the key). -/
structure EcdsaKeyPair where
  der : RStr
deriving DecidableEq, Repr

/-- Modelled from the spec (§4.1): types.rs `Jwk`, the public JWK of a key
pair (`Jwk::new`). -/
structure Jwk where
  key : EcdsaKeyPair
deriving DecidableEq, Repr

/-- Modelled from the spec (§3): types.rs `Jwk::thumb_sha256` hashes the
RFC 7638 canonical JWK of the key's public point with SHA-256. The public
point extraction happens inside ring, so the canonical form is modelled as a
deterministic function of the key's bytes. -/
def Jwk.thumb_sha256 (key : EcdsaKeyPair) : RStr := sha256 key.der

/-- src/lib.rs `Key`: account key material. The `rng` field (`SystemRandom`)
carries no observable state and is dropped; `inner` is the parsed key pair. -/
structure Key where
  signing_algorithm : SigningAlgorithm
  inner : EcdsaKeyPair
  pkcs8_der : RStr
  thumb : RStr
deriving DecidableEq, Repr

/-- src/lib.rs `ExternalAccountKey`: `key` is `hmac::Key::new(HMAC_SHA256,
key_value)`, represented by the raw key bytes. -/
structure ExternalAccountKey where
  id : RStr
  key_value : RStr
deriving DecidableEq, Repr

/-- src/lib.rs `Client` minus the transport handle (the transport is the
response script of the simulation). -/
structure Client where
  urls : DirectoryUrls
deriving DecidableEq, Repr

/-- src/lib.rs `AccountInner`. -/
structure AccountInner where
  client : Client
  key : Key
  id : RStr
deriving DecidableEq, Repr

/-- Modelled from the spec (§6.3): types.rs `AccountCredentials`. -/
structure AccountCredentials where
  id : RStr
  key_pkcs8 : RStr
  urls : DirectoryUrls
deriving DecidableEq, Repr

/-- Modelled from the spec (§9): types.rs `KeyOrKeyId`, the tagged `jwk`/`kid`
field of a protected header. -/
inductive KeyOrKeyId where
  | key (jwk : Jwk)
  | keyId (kid : RStr)
deriving DecidableEq, Repr

/-- Modelled from the spec (§4.1): types.rs `Header`, the JWS protected
header `{alg, (jwk|kid), nonce?, url}`. -/
structure Header where
  alg : SigningAlgorithm
  key : KeyOrKeyId
  nonce : Option RStr
  url : RStr
deriving DecidableEq, Repr

/-- src/lib.rs `Order`. The `account : Arc<AccountInner>` back-reference is
inlined by value. -/
structure Order where
  account : AccountInner
  nonce : Option RStr
  url : RStr
  state : OrderState
deriving DecidableEq, Repr

mutual
/-- The payloads serialized into request bodies by src/lib.rs: `Empty {}`,
`FinalizeRequest::new(csr_der)`, a `NewOrder`, a `NewAccountPayload` with its
optional external-account binding, and the bare `Jwk` signed inside an EAB
binding. Serialization to JSON bytes (serde) is kept symbolic. -/
inductive Payload where
  | emptyObj : Payload
  | finalizeReq (csr_der : RStr) : Payload
  | newOrderReq (order : NewOrder) : Payload
  | newAccountPayload (new_account : NewAccount)
      (external_account_binding : Option JoseJson) : Payload
  | jwkPayload (jwk : Jwk) : Payload

/-- Modelled from the spec (§4.2): types.rs `JoseJson`, the flattened JWS
`{protected, payload, signature}`. The signature is a function of the other
two fields and the signer, so it is not stored separately. -/
inductive JoseJson where
  | mk (protected_header : Header) (payload : Option Payload) : JoseJson
end

/-- The protected header of a JOSE envelope. -/
def JoseJson.protected_header : JoseJson → Header
  | .mk h _ => h

/-- The payload of a JOSE envelope. -/
def JoseJson.payload : JoseJson → Option Payload
  | .mk _ p => p

/-- Modelled from the spec (§4.2): types.rs `JoseJson::new(payload, header,
signer)`; the base64url serialization and the signature bytes are symbolic. -/
def JoseJson.new (payload : Option Payload) (header : Header) : JoseJson :=
  .mk header payload

/-- src/lib.rs `Error` (declared in types.rs; kinds from spec §7). -/
inductive Error where
  | api (problem : Problem)
  | transport
  | json
  | crypto
  | base64
  | str (msg : RStr)
deriving DecidableEq, Repr

/-! ## Response decoding (model of serde deserialization)

Modelled from the spec: the concrete JSON grammar lives in serde_json and
types.rs; response bodies are decoded by a deterministic, fallible decoder
over the byte stream. A length-prefixed format stands in for JSON: what
matters to the source's logic is only which bodies decode to which values,
and that decoding can fail. -/

/-- Decode one token. -/
def decNat : List Nat → Option (Nat × List Nat)
  | n :: rest => some (n, rest)
  | [] => none

/-- Decode a length-prefixed byte string. -/
def decRStr (bs : List Nat) : Option (RStr × List Nat) := do
  let (n, rest) ← decNat bs
  if n ≤ rest.length then some (rest.take n, rest.drop n) else none

/-- Decode an optional value (tag 0 = absent, 1 = present). -/
def decOpt (dec : List Nat → Option (α × List Nat)) (bs : List Nat) :
    Option (Option α × List Nat) := do
  let (t, rest) ← decNat bs
  match t with
  | 0 => some (none, rest)
  | 1 => do
    let (a, rest) ← dec rest
    some (some a, rest)
  | _ => none

/-- Decode `n` values. -/
def decCount (dec : List Nat → Option (α × List Nat)) :
    Nat → List Nat → Option (List α × List Nat)
  | 0, bs => some ([], bs)
  | n + 1, bs => do
    let (a, rest) ← dec bs
    let (as_, rest) ← decCount dec n rest
    some (a :: as_, rest)

/-- Decode a count-prefixed list. -/
def decList (dec : List Nat → Option (α × List Nat)) (bs : List Nat) :
    Option (List α × List Nat) := do
  let (n, rest) ← decNat bs
  decCount dec n rest

/-- Decode an `OrderStatus` tag. -/
def decOrderStatus (bs : List Nat) : Option (OrderStatus × List Nat) := do
  let (t, rest) ← decNat bs
  match t with
  | 0 => some (.pending, rest)
  | 1 => some (.ready, rest)
  | 2 => some (.processing, rest)
  | 3 => some (.valid, rest)
  | 4 => some (.invalid, rest)
  | _ => none

/-- Decode an `AuthorizationStatus` tag. -/
def decAuthorizationStatus (bs : List Nat) : Option (AuthorizationStatus × List Nat) := do
  let (t, rest) ← decNat bs
  match t with
  | 0 => some (.pending, rest)
  | 1 => some (.valid, rest)
  | 2 => some (.invalid, rest)
  | 3 => some (.revoked, rest)
  | 4 => some (.expired, rest)
  | 5 => some (.deactivated, rest)
  | _ => none

/-- Decode a `ChallengeType` tag. -/
def decChallengeType (bs : List Nat) : Option (ChallengeType × List Nat) := do
  let (t, rest) ← decNat bs
  match t with
  | 0 => some (.http01, rest)
  | 1 => some (.dns01, rest)
  | 2 => some (.tlsAlpn01, rest)
  | _ => none

/-- Decode a `ChallengeStatus` tag. -/
def decChallengeStatus (bs : List Nat) : Option (ChallengeStatus × List Nat) := do
  let (t, rest) ← decNat bs
  match t with
  | 0 => some (.pending, rest)
  | 1 => some (.processing, rest)
  | 2 => some (.valid, rest)
  | 3 => some (.invalid, rest)
  | _ => none

/-- Decode a `Problem`. -/
def decProblem (bs : List Nat) : Option (Problem × List Nat) := do
  let (t, rest) ← decOpt decRStr bs
  let (d, rest) ← decOpt decRStr rest
  let (s, rest) ← decOpt decNat rest
  some ({ ptype := t, detail := d, status := s }, rest)

/-- Decode an `OrderState`. -/
def decOrderState (bs : List Nat) : Option (OrderState × List Nat) := do
  let (st, rest) ← decOrderStatus bs
  let (auths, rest) ← decList decRStr rest
  let (fin, rest) ← decRStr rest
  let (cert, rest) ← decOpt decRStr rest
  let (err, rest) ← decOpt decProblem rest
  some ({ status := st, authorizations := auths, finalize := fin,
          certificate := cert, error := err }, rest)

/-- Decode a `Challenge`. -/
def decChallenge (bs : List Nat) : Option (Challenge × List Nat) := do
  let (ty, rest) ← decChallengeType bs
  let (u, rest) ← decRStr rest
  let (tok, rest) ← decRStr rest
  let (st, rest) ← decChallengeStatus rest
  some ({ ctype := ty, url := u, token := tok, status := st }, rest)

/-- Decode an `Authorization`. -/
def decAuthorization (bs : List Nat) : Option (Authorization × List Nat) := do
  let (st, rest) ← decAuthorizationStatus bs
  let (idn, rest) ← decRStr rest
  let (chs, rest) ← decList decChallenge rest
  some ({ status := st, identifier := .dns idn, challenges := chs }, rest)

/-- A whole-body deserializer from a step decoder (no trailing bytes). -/
def deserializeWith (dec : List Nat → Option (α × List Nat)) (bs : RStr) : Option α :=
  match dec bs with
  | some (a, []) => some a
  | _ => none

/-- `serde_json::from_slice::<OrderState>` model. -/
def deserializeOrderState : RStr → Option OrderState := deserializeWith decOrderState

/-- `serde_json::from_slice::<Challenge>` model. -/
def deserializeChallenge : RStr → Option Challenge := deserializeWith decChallenge

/-- `serde_json::from_slice::<Authorization>` model. -/
def deserializeAuthorization : RStr → Option Authorization := deserializeWith decAuthorization

/-- `serde_json::from_slice::<Problem>` model. -/
def deserializeProblem : RStr → Option Problem := deserializeWith decProblem

/-! ## HTTP simulation

The pluggable transport (`HttpClient`) is modelled by a script of pending
results consumed one per request, plus a log of the requests that were
actually sent. `none` in the script is a transport failure. -/

/-- HTTP request method as used by the source (`HEAD newNonce`, signed
`POST`, and the directory `GET`). -/
inductive Method where
  | get | head | post
deriving DecidableEq, Repr

/-- An outgoing request: method, URI, optional `Content-Type`, and the JOSE
envelope for signed POSTs. -/
structure HttpRequest where
  method : Method
  url : RStr
  content_type : Option RStr
  body : Option JoseJson

/-- An HTTP response: status code, the raw bytes of the `Replay-Nonce` and
`Location` header values when present, and the body bytes (`none` when
reading the body fails). -/
structure Response where
  status : Nat
  replay_nonce : Option RStr
  location : Option RStr
  body : Option RStr
deriving DecidableEq, Repr

/-- The transport simulation: responses still to be delivered, and the log of
requests sent so far. -/
structure HttpSim where
  script : List (Option Response)
  sent : List HttpRequest

/-- Send one request: log it, then consume the next scripted result. An
exhausted script behaves as a transport failure. -/
def doRequest (req : HttpRequest) (w : HttpSim) : Except Error Response × HttpSim :=
  match w.script with
  | [] => (.error .transport, { w with sent := w.sent ++ [req] })
  | r :: rest =>
    let w := { script := rest, sent := w.sent ++ [req] }
    match r with
    | none => (.error .transport, w)
    | some rsp => (.ok rsp, w)

/-- `hyper::header::HeaderValue::to_str`: succeeds only on visible ASCII
(and tab) bytes. -/
def headerValueToStr (bs : RStr) : Option RStr :=
  if bs.all (fun b => (32 ≤ b && b < 127) || b = 9) then some bs else none

/-- src/lib.rs `nonce_from_response`: the raw `Replay-Nonce` bytes decoded by
`String::from_utf8`. -/
def nonce_from_response (rsp : Response) : Option RStr :=
  rsp.replay_nonce.bind string_from_utf8

/-- src/lib.rs `JOSE_JSON` constant. -/
def JOSE_JSON : RStr := ascii "application/jose+json"

/-! ## Problem decoder -/

/-- Modelled from the spec (§4.7): types.rs `Problem::from_response` followed
by reading the body. Status `≥ 400`: parse the body as a `Problem` and fail
with `Api`, or with a generic wrapped error when unparseable. Success: the
body bytes flow through. A failed body read is a transport error. -/
def Problem.from_response (rsp : Response) : Except Error RStr :=
  match rsp.body with
  | none => .error .transport
  | some bs =>
    if 400 ≤ rsp.status then
      match deserializeProblem bs with
      | some p => .error (.api p)
      | none => .error (.str (ascii "unparseable problem document"))
    else .ok bs

/-- Modelled from the spec (§4.7): types.rs `Problem::check::<T>`: surface a
problem document, otherwise decode the body as `T`. -/
def Problem.check (dec : RStr → Option α) (rsp : Response) : Except Error α :=
  match Problem.from_response rsp with
  | .error e => .error e
  | .ok bs =>
    match dec bs with
    | some a => .ok a
    | none => .error .json

/-! ## Signers (src/lib.rs `impl Signer for ...`) -/

/-- The three signer variants of the source: an account (`AccountInner`), a
bare `Key` (first `newAccount` request), and the EAB HMAC key. -/
inductive SignerKind where
  | account (acc : AccountInner)
  | bareKey (key : Key)
  | eab (key : ExternalAccountKey)

/-- `Signer::header` dispatch: src/lib.rs lines 384–392 (`AccountInner`),
499–507 (`Key`), 577–585 (`ExternalAccountKey`). -/
def SignerKind.header : SignerKind → Option RStr → RStr → Header
  | .account acc, nonce, url =>
    { alg := acc.key.signing_algorithm, key := .keyId acc.id, nonce := nonce, url := url }
  | .bareKey key, nonce, url =>
    { alg := key.signing_algorithm, key := .key ⟨key.inner⟩, nonce := nonce, url := url }
  | .eab key, nonce, url =>
    { alg := .hs256, key := .keyId key.id, nonce := nonce, url := url }

/-! ## Client (src/lib.rs lines 399–447) -/

/-- The signed POST request built at src/lib.rs lines 437–443. -/
def joseRequest (payload : Option Payload) (signer : SignerKind) (n url : RStr) :
    HttpRequest :=
  { method := .post, url := url, content_type := some JOSE_JSON,
    body := some (JoseJson.new payload (signer.header (some n) url)) }

/-- The `HEAD newNonce` request built at src/lib.rs lines 426–430. -/
def headNonceRequest (urls : DirectoryUrls) : HttpRequest :=
  { method := .head, url := urls.new_nonce, content_type := none, body := none }

/-- src/lib.rs `Client::post` (lines 418–446): acquire a nonce via
`HEAD newNonce` when the slot is empty, fail with "no nonce found" when still
absent, else send the signed POST. -/
def Client.post (urls : DirectoryUrls) (payload : Option Payload)
    (nonce : Option RStr) (signer : SignerKind) (url : RStr) (w : HttpSim) :
    Except Error Response × HttpSim :=
  let acquired : Except Error (Option RStr) × HttpSim :=
    match nonce with
    | none =>
      match doRequest (headNonceRequest urls) w with
      | (.error e, w) => (.error e, w)
      | (.ok rsp, w) => (.ok (nonce_from_response rsp), w)
    | some n => (.ok (some n), w)
  match acquired with
  | (.error e, w) => (.error e, w)
  | (.ok none, w) => (.error (.str (ascii "no nonce found")), w)
  | (.ok (some n), w) => doRequest (joseRequest payload signer n url) w

/-! ## AccountInner (src/lib.rs lines 332–397) -/

/-- src/lib.rs `AccountInner::post` (lines 363–370). -/
def AccountInner.post (acc : AccountInner) (payload : Option Payload)
    (nonce : Option RStr) (url : RStr) (w : HttpSim) : Except Error Response × HttpSim :=
  Client.post acc.client.urls payload nonce (.account acc) url w

/-- src/lib.rs `AccountInner::get` (lines 353–361): POST-as-GET with
`nonce.take()`, refill the slot from the response, then `Problem::check`.
Returns the result together with the final value of the `&mut` nonce slot. -/
def AccountInner.get (dec : RStr → Option α) (acc : AccountInner)
    (nonce : Option RStr) (url : RStr) (w : HttpSim) :
    Except Error α × Option RStr × HttpSim :=
  match acc.post none nonce url w with
  | (.error e, w) => (.error e, none, w)
  | (.ok rsp, w) => (Problem.check dec rsp, nonce_from_response rsp, w)

/-- src/lib.rs `Key::from_pkcs8_der` (lines 482–493). `EcdsaKeyPair::from_pkcs8`
is external (ring) and is modelled as retaining the DER bytes. -/
def Key.from_pkcs8_der (pkcs8_der : RStr) : Except Error Key :=
  let key : EcdsaKeyPair := ⟨pkcs8_der⟩
  .ok { signing_algorithm := .es256, inner := key, pkcs8_der := pkcs8_der,
        thumb := base64urlEncode (Jwk.thumb_sha256 key) }

/-- src/lib.rs `AccountInner::from_credentials` (lines 339–351). -/
def AccountInner.from_credentials (credentials : AccountCredentials) :
    Except Error AccountInner :=
  match base64urlDecode credentials.key_pkcs8 with
  | none => .error .base64
  | some der =>
    match Key.from_pkcs8_der der with
    | .error e => .error e
    | .ok key => .ok { key := key, client := { urls := credentials.urls },
                       id := credentials.id }

/-- src/lib.rs `AccountInner::credentials` (lines 372–378). -/
def AccountInner.credentials (acc : AccountInner) : AccountCredentials :=
  { id := acc.id, key_pkcs8 := base64urlEncode acc.key.pkcs8_der,
    urls := acc.client.urls }

/-! ## KeyAuthorization (src/lib.rs lines 519–548) -/

/-- src/lib.rs `KeyAuthorization`: the key-authorization string. -/
structure KeyAuthorization where
  val : RStr
deriving DecidableEq, Repr

/-- src/lib.rs `KeyAuthorization::new` (lines 522–524):
`format!("{}.{}", challenge.token, &key.thumb)`. -/
def KeyAuthorization.new (challenge : Challenge) (key : Key) : KeyAuthorization :=
  ⟨challenge.token ++ ascii "." ++ key.thumb⟩

/-- src/lib.rs `KeyAuthorization::digest` (lines 538–540):
`ring::digest::digest(&SHA256, self.0.as_bytes())`. -/
def KeyAuthorization.digest (ka : KeyAuthorization) : RStr := sha256 ka.val

/-- src/lib.rs `KeyAuthorization::dns_value` (lines 545–547):
`BASE64_URL_SAFE_NO_PAD.encode(self.digest())`. -/
def KeyAuthorization.dns_value (ka : KeyAuthorization) : RStr :=
  base64urlEncode ka.digest

/-! ## Order operations (src/lib.rs lines 49–186) -/

/-- src/lib.rs `Order::key_authorization` (lines 77–79). -/
def Order.key_authorization (o : Order) (challenge : Challenge) : KeyAuthorization :=
  KeyAuthorization.new challenge o.account.key

/-- src/lib.rs `Order::refresh` (lines 164–173): POST-as-GET the order URL
with `self.nonce.take()`, refill the nonce, then replace the state with the
checked response body. -/
def Order.refresh (o : Order) (w : HttpSim) :
    Except Error OrderState × Order × HttpSim :=
  match o.account.post none o.nonce o.url w with
  | (.error e, w) => (.error e, { o with nonce := none }, w)
  | (.ok rsp, w) =>
    let o := { o with nonce := nonce_from_response rsp }
    match Problem.check deserializeOrderState rsp with
    | .error e => (.error e, o, w)
    | .ok st => (.ok st, { o with state := st }, w)

/-- src/lib.rs `Order::finalize` (lines 86–99): POST
`FinalizeRequest::new(csr_der)` to `state.finalize` with `self.nonce.take()`,
refill the nonce, then replace the state. -/
def Order.finalize (o : Order) (csr_der : RStr) (w : HttpSim) :
    Except Error Unit × Order × HttpSim :=
  match o.account.post (some (.finalizeReq csr_der)) o.nonce o.state.finalize w with
  | (.error e, w) => (.error e, { o with nonce := none }, w)
  | (.ok rsp, w) =>
    let o := { o with nonce := nonce_from_response rsp }
    match Problem.check deserializeOrderState rsp with
    | .error e => (.error e, o, w)
    | .ok st => (.ok (), { o with state := st }, w)

/-- src/lib.rs `Order::set_challenge_ready` (lines 147–156): POST `Empty {}`
to the challenge URL; the checked response is discarded. -/
def Order.set_challenge_ready (o : Order) (challenge_url : RStr) (w : HttpSim) :
    Except Error Unit × Order × HttpSim :=
  match o.account.post (some .emptyObj) o.nonce challenge_url w with
  | (.error e, w) => (.error e, { o with nonce := none }, w)
  | (.ok rsp, w) =>
    let o := { o with nonce := nonce_from_response rsp }
    match Problem.check deserializeChallenge rsp with
    | .error e => (.error e, o, w)
    | .ok _ => (.ok (), o, w)

/-- src/lib.rs `Order::challenge` (lines 159–161):
`self.account.get(&mut self.nonce, challenge_url)`. -/
def Order.challenge (o : Order) (challenge_url : RStr) (w : HttpSim) :
    Except Error Challenge × Order × HttpSim :=
  match AccountInner.get deserializeChallenge o.account o.nonce challenge_url w with
  | (r, n, w) => (r, { o with nonce := n }, w)

/-- The loop body of src/lib.rs `Order::authorizations` (lines 66–69): fetch
each authorization URL in turn through `AccountInner::get`, threading the
nonce slot. -/
def authorizationsLoop (acc : AccountInner) (urls : List RStr)
    (nonce : Option RStr) (w : HttpSim) :
    Except Error (List Authorization) × Option RStr × HttpSim :=
  match urls with
  | [] => (.ok [], nonce, w)
  | u :: rest =>
    match AccountInner.get deserializeAuthorization acc nonce u w with
    | (.error e, n, w) => (.error e, n, w)
    | (.ok a, n, w) =>
      match authorizationsLoop acc rest n w with
      | (.error e, n, w) => (.error e, n, w)
      | (.ok as_, n, w) => (.ok (a :: as_), n, w)

/-- src/lib.rs `Order::authorizations` (lines 65–71). -/
def Order.authorizations (o : Order) (w : HttpSim) :
    Except Error (List Authorization) × Order × HttpSim :=
  match authorizationsLoop o.account o.state.authorizations o.nonce w with
  | (r, n, w) => (r, { o with nonce := n }, w)

/-- src/lib.rs `Order::certificate`, lines 109–116: while the cached status
is `processing`, POST-as-GET the order URL once with `self.nonce.take()`,
refill the nonce, and replace the state with the checked body. -/
def Order.certRefreshStep (o : Order) (w : HttpSim) :
    Except Error Unit × Order × HttpSim :=
  if o.state.status = .processing then
    match o.account.post none o.nonce o.url w with
    | (.error e, w) => (.error e, { o with nonce := none }, w)
    | (.ok rsp, w) =>
      let o := { o with nonce := nonce_from_response rsp }
      match Problem.check deserializeOrderState rsp with
      | .error e => (.error e, o, w)
      | .ok st => (.ok (), { o with state := st }, w)
  else (.ok (), o, w)

/-- src/lib.rs `Order::certificate`, lines 118–141: surface `state.error`,
demand status `valid` and a certificate URL, then POST-as-GET the
certificate URL with `self.nonce.take()`, refill the nonce, and return the
body as a UTF-8 string. -/
def Order.certFinish (o : Order) (w : HttpSim) :
    Except Error (Option RStr) × Order × HttpSim :=
  match o.state.error with
  | some error => (.error (.api error), o, w)
  | none =>
    if o.state.status = .processing then (.ok none, o, w)
    else if o.state.status ≠ .valid then
      (.error (.str (ascii "invalid order state")), o, w)
    else
      match o.state.certificate with
      | none => (.error (.str (ascii "no certificate URL found")), o, w)
      | some cert_url =>
        match o.account.post none o.nonce cert_url w with
        | (.error e, w) => (.error e, { o with nonce := none }, w)
        | (.ok rsp, w) =>
          let o := { o with nonce := nonce_from_response rsp }
          match Problem.from_response rsp with
          | .error e => (.error e, o, w)
          | .ok body =>
            match string_from_utf8 body with
            | some s => (.ok (some s), o, w)
            | none =>
              (.error (.str (ascii "unable to decode certificate as UTF-8")), o, w)

/-- src/lib.rs `Order::certificate` (lines 108–142), the composition of the
two halves above. -/
def Order.certificate (o : Order) (w : HttpSim) :
    Except Error (Option RStr) × Order × HttpSim :=
  match Order.certRefreshStep o w with
  | (.error e, o, w) => (.error e, o, w)
  | (.ok _, o, w) => Order.certFinish o w

/-! ## Account operations (src/lib.rs lines 201–330) -/

/-- src/lib.rs `Account::new_order` (lines 300–322): POST the order request
to `newOrder` with an empty nonce slot; `Location` is the order URL; the
checked body is the initial state. `Problem::check` runs before the missing
order URL is reported. -/
def Account.new_order (acc : AccountInner) (order : NewOrder) (w : HttpSim) :
    Except Error Order × HttpSim :=
  match acc.post (some (.newOrderReq order)) none acc.client.urls.new_order w with
  | (.error e, w) => (.error e, w)
  | (.ok rsp, w) =>
    let nonce := nonce_from_response rsp
    let order_url := rsp.location.bind headerValueToStr
    match Problem.check deserializeOrderState rsp with
    | .error e => (.error e, w)
    | .ok st =>
      match order_url with
      | none => (.error (.str (ascii "no order URL found")), w)
      | some u =>
        (.ok { account := acc, nonce := nonce, url := u, state := st }, w)

/-- src/lib.rs `Account::create_inner` (lines 257–295). The generated key is
passed in explicitly (`Key::generate` draws from `SystemRandom`). POSTs the
`newAccount` payload signed by the bare key with an empty nonce slot;
`Problem::from_response` runs before the missing account URL is reported. -/
def Account.create_inner (account : NewAccount)
    (external_account : Option ExternalAccountKey) (key : Key)
    (urls : DirectoryUrls) (w : HttpSim) : Except Error AccountInner × HttpSim :=
  let payload : Payload := .newAccountPayload account
    (external_account.map fun eak =>
      JoseJson.new (some (.jwkPayload ⟨key.inner⟩))
        (SignerKind.header (.eab eak) none urls.new_account))
  match Client.post urls (some payload) none (.bareKey key) urls.new_account w with
  | (.error e, w) => (.error e, w)
  | (.ok rsp, w) =>
    let account_url := rsp.location.bind headerValueToStr
    match Problem.from_response rsp with
    | .error e => (.error e, w)
    | .ok _ =>
      match account_url with
      | none => (.error (.str (ascii "failed to get account URL")), w)
      | some id => (.ok { client := { urls := urls }, key := key, id := id }, w)

/-! ## Auxiliary predicates -/

/-- Does the header's key field serialize as `kid`? -/
def KeyOrKeyId.isKid : KeyOrKeyId → Bool
  | .keyId _ => true
  | .key _ => false

/-- Does the header's key field serialize as `jwk`? -/
def KeyOrKeyId.isJwk : KeyOrKeyId → Bool
  | .key _ => true
  | .keyId _ => false

/-- A `Key` as produced by `Key::generate` / `Key::from_pkcs8_der`: the parsed
pair carries the retained DER, the algorithm is ES256, the thumbprint is the
base64url of the key's RFC 7638 SHA-256 thumbprint, and the DER is bytes. -/
def Key.wf (k : Key) : Prop :=
  Key.from_pkcs8_der k.pkcs8_der = .ok k ∧ ∀ b ∈ k.pkcs8_der, b < 256

instance {α β : Type} [DecidableEq α] [DecidableEq β] : DecidableEq (Except α β)
  | .ok a, .ok b => decidable_of_iff (a = b) (by simp)
  | .error a, .error b => decidable_of_iff (a = b) (by simp)
  | .ok _, .error _ => isFalse (by simp)
  | .error _, .ok _ => isFalse (by simp)

instance (k : Key) : Decidable (Key.wf k) := by
  unfold Key.wf; infer_instance

/-! ## Reduction lemmas for the client -/

/-- `Client::post` with a stored nonce sends the signed POST directly. -/
theorem client_post_some (urls : DirectoryUrls) (payload : Option Payload)
    (signer : SignerKind) (url : RStr) (w : HttpSim) (n : RStr) :
    Client.post urls payload (some n) signer url w =
      doRequest (joseRequest payload signer n url) w := rfl

/-- `Client::post` with an empty slot: `HEAD newNonce` first, then branch on
the extracted nonce. -/
theorem client_post_none (urls : DirectoryUrls) (payload : Option Payload)
    (signer : SignerKind) (url : RStr) (w : HttpSim) :
    Client.post urls payload none signer url w =
      match doRequest (headNonceRequest urls) w with
      | (.error e, w) => (.error e, w)
      | (.ok rsp, w) =>
        match nonce_from_response rsp with
        | none => (.error (.str (ascii "no nonce found")), w)
        | some n => doRequest (joseRequest payload signer n url) w := by
  unfold Client.post
  rcases hd : doRequest (headNonceRequest urls) w with ⟨res, w2⟩
  cases res with
  | error e => rfl
  | ok rsp =>
    rcases hn : nonce_from_response rsp with _ | n <;> simp [hn]

/-- A successful `doRequest` consumed the head of the script. -/
theorem doRequest_ok_script {req : HttpRequest} {w : HttpSim} {rsp : Response}
    {w' : HttpSim} (h : doRequest req w = (.ok rsp, w')) :
    w.script = some rsp :: w'.script := by
  unfold doRequest at h
  split at h
  · simp at h
  · split at h
    · simp at h
    · cases h
      simp_all

/-- The response a successful `Client::post` returns came from the script. -/
theorem client_post_ok_mem {urls : DirectoryUrls} {payload : Option Payload}
    {nonce : Option RStr} {signer : SignerKind} {url : RStr} {w : HttpSim}
    {rsp : Response} {w' : HttpSim}
    (h : Client.post urls payload nonce signer url w = (.ok rsp, w')) :
    some rsp ∈ w.script := by
  cases nonce with
  | some n =>
    rw [client_post_some] at h
    rw [doRequest_ok_script h]
    simp
  | none =>
    rw [client_post_none] at h
    rcases hd : doRequest (headNonceRequest urls) w with ⟨res, w2⟩
    rw [hd] at h
    cases res with
    | error e => simp at h
    | ok rsp1 =>
      simp only [] at h
      rcases hn : nonce_from_response rsp1 with _ | n <;> rw [hn] at h
      · simp at h
      · rw [doRequest_ok_script hd, doRequest_ok_script h]
        simp

/-! ## Claims -/

/-- C3: every protected header carries exactly one of `jwk`/`kid`; an
account-signed header uses `kid` equal to the account URL, the account's
algorithm, and carries the supplied nonce; a bare-key header (first
`newAccount` request) embeds the `jwk` of the key; the EAB HMAC header uses
`kid` equal to the EAB id, algorithm HS256, and (as invoked with no nonce)
omits the nonce. -/
theorem signer_header_spec (acc : AccountInner) (key : Key)
    (eak : ExternalAccountKey) (n url : RStr) :
    (∀ s : SignerKind, ∀ nonce u,
      ((SignerKind.header s nonce u).key.isJwk ^^ (SignerKind.header s nonce u).key.isKid)
        = true) ∧
    SignerKind.header (.account acc) (some n) url =
      { alg := acc.key.signing_algorithm, key := .keyId acc.id,
        nonce := some n, url := url } ∧
    SignerKind.header (.bareKey key) (some n) url =
      { alg := key.signing_algorithm, key := .key ⟨key.inner⟩,
        nonce := some n, url := url } ∧
    SignerKind.header (.eab eak) none url =
      { alg := .hs256, key := .keyId eak.id, nonce := none, url := url } := by
  refine ⟨?_, rfl, rfl, rfl⟩
  rintro (acc' | key' | eak') nonce u <;> rfl

/-- C7: `Order::key_authorization` is a pure function of the order and the
challenge (it is embedded without access to the transport or any mutable
state) and returns `challenge.token ++ "." ++ account.key.thumb`. -/
theorem key_authorization_spec (o : Order) (challenge : Challenge) :
    Order.key_authorization o challenge =
      ⟨challenge.token ++ ascii "." ++ o.account.key.thumb⟩ := rfl

/-- C8: `dns_value` is the base64url (no pad) encoding of the SHA-256 digest
of the key-authorization string, and `digest` is that SHA-256 digest. -/
theorem dns_value_spec (ka : KeyAuthorization) :
    ka.dns_value = base64urlEncode (sha256 ka.val) ∧ ka.digest = sha256 ka.val :=
  ⟨rfl, rfl⟩

/-- C9 counterexample: the claim says any non-ASCII byte in `Replay-Nonce`
makes extraction yield `None`; but `String::from_utf8` accepts valid
multi-byte UTF-8, so the two bytes `0xC3 0xA9` (both non-ASCII) are returned
as `Some`. -/
theorem nonce_non_ascii_counterexample :
    (∃ b ∈ [195, 169], 128 ≤ b) ∧
    nonce_from_response
        { status := 200, replay_nonce := some [195, 169], location := none,
          body := none } = some [195, 169] := by
  refine ⟨⟨195, by decide, by decide⟩, by decide⟩

/-- C9 as amended: the `Replay-Nonce` value is read as raw bytes interpreted
as UTF-8; extraction yields `None` exactly when the bytes are not valid
UTF-8 (in particular for a stray non-ASCII byte that is not part of a valid
UTF-8 sequence), and returns the bytes unchanged otherwise. -/
theorem nonce_from_response_utf8 (rsp : Response) (bs : RStr)
    (h : rsp.replay_nonce = some bs) :
    nonce_from_response rsp = if validUtf8 bs then some bs else none := by
  simp [nonce_from_response, h, string_from_utf8]

/-- C9 amended-claim witness: a lone `0xFF` byte is invalid UTF-8, so
extraction yields `None` and the next POST must fetch a fresh nonce. -/
theorem nonce_from_response_utf8_witness :
    (Response.mk 200 (some [255]) none none).replay_nonce = some [255] ∧
    nonce_from_response (Response.mk 200 (some [255]) none none) =
      if validUtf8 [255] then some [255] else none :=
  ⟨rfl, nonce_from_response_utf8 _ [255] rfl⟩

/-- C5: `Client::post` with an empty nonce slot first issues `HEAD newNonce`
(never a POST); if that response yields no nonce the call fails with
"no nonce found" having sent only the HEAD, and otherwise the signed POST is
sent carrying the nonce taken from the HEAD response. -/
theorem client_post_head_nonce (urls : DirectoryUrls) (payload : Option Payload)
    (signer : SignerKind) (url : RStr) (w : HttpSim) (rsp : Response)
    (rest : List (Option Response)) (hscript : w.script = some rsp :: rest) :
    (headNonceRequest urls).method ≠ .post ∧
    (nonce_from_response rsp = none →
      Client.post urls payload none signer url w =
        (.error (.str (ascii "no nonce found")),
         { script := rest, sent := w.sent ++ [headNonceRequest urls] })) ∧
    (∀ n, nonce_from_response rsp = some n →
      Client.post urls payload none signer url w =
        doRequest (joseRequest payload signer n url)
          { script := rest, sent := w.sent ++ [headNonceRequest urls] }) := by
  refine ⟨by simp [headNonceRequest], ?_, ?_⟩
  · intro h
    simp [Client.post, doRequest, hscript, h]
  · intro n h
    simp [Client.post, doRequest, hscript, h]

/-- C5 witness: a scripted HEAD response with no `Replay-Nonce` header makes
`Client::post` fail with "no nonce found" after sending only the HEAD. -/
theorem client_post_head_nonce_witness :
    (HttpSim.mk [some (Response.mk 200 none none none)] []).script =
      some (Response.mk 200 none none none) :: [] ∧
    (nonce_from_response (Response.mk 200 none none none) = none →
      Client.post ⟨[1], [2], [3]⟩ none none (.eab ⟨[5], [6]⟩) [4]
          (HttpSim.mk [some (Response.mk 200 none none none)] []) =
        (.error (.str (ascii "no nonce found")),
         { script := [], sent := [] ++ [headNonceRequest ⟨[1], [2], [3]⟩] })) := by
  refine ⟨rfl, ?_⟩
  exact (client_post_head_nonce ⟨[1], [2], [3]⟩ none (.eab ⟨[5], [6]⟩) [4]
    (HttpSim.mk [some (Response.mk 200 none none none)] [])
    (Response.mk 200 none none none) [] rfl).2.1

/-- C10: when the `newOrder` / `newAccount` response is a problem document
(status ≥ 400) and has no `Location` header, both `Account::new_order` and
`Account::create_inner` surface the `Api(Problem)` error from the body, not
the missing-URL error: the problem check precedes the URL check. -/
theorem problem_before_missing_url (acc : AccountInner) (order : NewOrder)
    (na : NewAccount) (eak : Option ExternalAccountKey) (key : Key)
    (urls : DirectoryUrls) (w : HttpSim) (rsp1 rsp2 : Response) (n bs : RStr)
    (p : Problem)
    (hscript : w.script = [some rsp1, some rsp2])
    (hn : nonce_from_response rsp1 = some n)
    (hstatus : 400 ≤ rsp2.status)
    (hbody : rsp2.body = some bs)
    (hp : deserializeProblem bs = some p)
    (hloc : rsp2.location = none) :
    (Account.new_order acc order w).1 = .error (.api p) ∧
    (Account.create_inner na eak key urls w).1 = .error (.api p) := by
  constructor
  · simp [Account.new_order, AccountInner.post, Client.post, doRequest, hscript, hn,
      Problem.check, Problem.from_response, hbody, hstatus, hp, hloc]
  · simp [Account.create_inner, Client.post, doRequest, hscript, hn,
      Problem.from_response, hbody, hstatus, hp, hloc]

/-- C10 witness: a two-entry script (nonce HEAD, then a 400 problem response
without `Location`) drives both flows into the `Api` error. -/
theorem problem_before_missing_url_witness :
    (HttpSim.mk [some (Response.mk 200 (some [65]) none none),
        some (Response.mk 400 none none (some [0, 0, 0]))] []).script =
      [some (Response.mk 200 (some [65]) none none),
       some (Response.mk 400 none none (some [0, 0, 0]))] ∧
    nonce_from_response (Response.mk 200 (some [65]) none none) = some [65] ∧
    400 ≤ (Response.mk 400 none none (some [0, 0, 0])).status ∧
    (Response.mk 400 none none (some [0, 0, 0])).body = some [0, 0, 0] ∧
    deserializeProblem [0, 0, 0] = some ⟨none, none, none⟩ ∧
    (Response.mk 400 none none (some [0, 0, 0])).location = none ∧
    (Account.new_order ⟨⟨⟨[1], [2], [3]⟩⟩, ⟨.es256, ⟨[]⟩, [], []⟩, [7]⟩ ⟨[]⟩
        (HttpSim.mk [some (Response.mk 200 (some [65]) none none),
          some (Response.mk 400 none none (some [0, 0, 0]))] [])).1 =
      .error (.api ⟨none, none, none⟩) := by
  refine ⟨rfl, by decide, by decide, rfl, by decide, rfl, ?_⟩
  exact (problem_before_missing_url ⟨⟨⟨[1], [2], [3]⟩⟩, ⟨.es256, ⟨[]⟩, [], []⟩, [7]⟩
    ⟨[]⟩ ⟨[], false, false⟩ none ⟨.es256, ⟨[]⟩, [], []⟩ ⟨[1], [2], [3]⟩
    (HttpSim.mk [some (Response.mk 200 (some [65]) none none),
      some (Response.mk 400 none none (some [0, 0, 0]))] [])
    (Response.mk 200 (some [65]) none none)
    (Response.mk 400 none none (some [0, 0, 0])) [65] [0, 0, 0] ⟨none, none, none⟩
    rfl (by decide) (by decide) rfl (by decide) rfl).1

/-- C4: `finalize` and `refresh` leave `Order.state` unchanged whenever they
return an error, and `certificate` either leaves the state unchanged or sets
it to the value obtained by fully and successfully decoding a scripted
response body through `Problem::check` — the state is never assigned from a
partially processed response. -/
theorem state_mutation_safety (o : Order) (csr : RStr) (w : HttpSim) :
    (∀ e o' w', Order.refresh o w = (.error e, o', w') → o'.state = o.state) ∧
    (∀ e o' w', Order.finalize o csr w = (.error e, o', w') → o'.state = o.state) ∧
    (∀ r o' w', Order.certificate o w = (r, o', w') →
      o'.state = o.state ∨
        ∃ rsp, some rsp ∈ w.script ∧
          Problem.check deserializeOrderState rsp = .ok o'.state) := by
  refine ⟨?_, ?_, ?_⟩
  · intro e o' w' h
    unfold Order.refresh at h
    split at h
    · cases h; rfl
    · split at h
      · cases h; rfl
      · simp at h
  · intro e o' w' h
    unfold Order.finalize at h
    split at h
    · cases h; rfl
    · split at h
      · cases h; rfl
      · simp at h
  · intro r o' w' h
    unfold Order.certificate at h
    split at h
    · rename_i e o1 w1 heq
      cases h
      unfold Order.certRefreshStep at heq
      split at heq
      · split at heq
        · cases heq; left; rfl
        · split at heq
          · cases heq; left; rfl
          · simp at heq
      · simp at heq
    · rename_i o1 w1 heq
      have hst : o1.state = o.state ∨
          ∃ rsp, some rsp ∈ w.script ∧
            Problem.check deserializeOrderState rsp = .ok o1.state := by
        unfold Order.certRefreshStep at heq
        split at heq
        · split at heq
          · simp at heq
          · split at heq
            · simp at heq
            · rename_i rsp w2 hpost xx st2 hcheck
              simp only [] at heq
              cases heq
              right
              exact ⟨rsp, client_post_ok_mem hpost, hcheck⟩
        · cases heq; left; rfl
      have hpres : o'.state = o1.state := by
        unfold Order.certFinish at h
        split at h
        · cases h; rfl
        · split at h
          · cases h; rfl
          · split at h
            · cases h; rfl
            · split at h
              · cases h; rfl
              · split at h
                · cases h; rfl
                · split at h
                  · cases h; rfl
                  · split at h
                    · cases h; rfl
                    · cases h; rfl
      rw [hpres]
      exact hst

/-- The decision procedure the claim states for `certificate()`, written from
the specification's words (§4.5 steps 1–6): if the cached status is
`processing`, refresh once from the order URL — the source's own
`Order::refresh` operation; then a present `state.error` returns `Api`; a
still-`processing` status returns `Ok(None)`; a status other than `valid`
returns "invalid order state"; an absent certificate URL returns
"no certificate URL found"; otherwise the certificate URL is fetched
POST-as-GET and the body returned as a UTF-8 string, erring on invalid
UTF-8. -/
def certificateSpec (o : Order) (w : HttpSim) :
    Except Error (Option RStr) × Order × HttpSim :=
  let step : Except Error Unit × Order × HttpSim :=
    if o.state.status = .processing then
      match Order.refresh o w with
      | (.error e, o, w) => (.error e, o, w)
      | (.ok _, o, w) => (.ok (), o, w)
    else (.ok (), o, w)
  match step with
  | (.error e, o, w) => (.error e, o, w)
  | (.ok _, o, w) =>
    match o.state.error with
    | some p => (.error (.api p), o, w)
    | none =>
      if o.state.status = .processing then (.ok none, o, w)
      else if o.state.status ≠ .valid then
        (.error (.str (ascii "invalid order state")), o, w)
      else
        match o.state.certificate with
        | none => (.error (.str (ascii "no certificate URL found")), o, w)
        | some cert_url =>
          match o.account.post none o.nonce cert_url w with
          | (.error e, w) => (.error e, { o with nonce := none }, w)
          | (.ok rsp, w) =>
            let o := { o with nonce := nonce_from_response rsp }
            match Problem.from_response rsp with
            | .error e => (.error e, o, w)
            | .ok body =>
              match string_from_utf8 body with
              | some s => (.ok (some s), o, w)
              | none =>
                (.error (.str (ascii "unable to decode certificate as UTF-8")), o, w)

/-- C1: `Order::certificate` follows exactly the claimed decision procedure
over the cached state, for every order and every transport behavior. -/
theorem certificate_follows_spec (o : Order) (w : HttpSim) :
    Order.certificate o w = certificateSpec o w := by
  unfold Order.certificate certificateSpec Order.certRefreshStep Order.refresh
    Order.certFinish
  by_cases hp : o.state.status = .processing
  · rw [if_pos hp, if_pos hp]
    rcases hpost : o.account.post none o.nonce o.url w with ⟨res, w1⟩
    cases res with
    | error e => rfl
    | ok rsp =>
      rcases hchk : Problem.check deserializeOrderState rsp with e | st <;>
        simp only [] <;> rw [hchk] <;> rfl
  · rw [if_neg hp, if_neg hp]

/-- The sent log always grows by exactly the request passed to `doRequest`. -/
theorem doRequest_sent (req : HttpRequest) (w : HttpSim) :
    (doRequest req w).2.sent = w.sent ++ [req] := by
  unfold doRequest
  rcases hs : w.script with _ | ⟨r, rest⟩
  · rfl
  · cases r <;> rfl

/-- `doRequest` against a script headed by a response delivers it. -/
theorem doRequest_script_cons (req : HttpRequest) (w : HttpSim) (rsp : Response)
    (rest : List (Option Response)) (hs : w.script = some rsp :: rest) :
    doRequest req w = (.ok rsp, ⟨rest, w.sent ++ [req]⟩) := by
  unfold doRequest
  rw [hs]

/-- `AccountInner::post` with a stored nonce is exactly the signed POST. -/
theorem account_post_some (acc : AccountInner) (p : Option Payload) (n u : RStr)
    (w : HttpSim) :
    AccountInner.post acc p (some n) u w =
      doRequest (joseRequest p (.account acc) n u) w := rfl

/-- C6: restoring an account from its exported credentials round-trips: the
base64url encoding of the PKCS#8 DER decodes back losslessly, and the
restored account has the same id, the same directory urls, and the same JWK
thumbprint (and the same DER). -/
theorem credentials_roundtrip (acc : AccountInner) (h : Key.wf acc.key) :
    base64urlDecode (AccountInner.credentials acc).key_pkcs8 =
      some acc.key.pkcs8_der ∧
    ∃ acc', AccountInner.from_credentials (AccountInner.credentials acc) = .ok acc' ∧
      acc'.id = acc.id ∧ acc'.client.urls = acc.client.urls ∧
      acc'.key.thumb = acc.key.thumb ∧ acc'.key.pkcs8_der = acc.key.pkcs8_der := by
  obtain ⟨hk, hb⟩ := h
  have hdec : base64urlDecode (base64urlEncode acc.key.pkcs8_der) =
      some acc.key.pkcs8_der := base64urlDecode_encode _ hb
  have ht : base64urlEncode (Jwk.thumb_sha256 ⟨acc.key.pkcs8_der⟩) = acc.key.thumb :=
    congrArg Key.thumb (Except.ok.inj hk)
  constructor
  · simpa [AccountInner.credentials] using hdec
  · simp only [AccountInner.from_credentials, AccountInner.credentials, hdec,
      Key.from_pkcs8_der]
    exact ⟨_, rfl, rfl, rfl, ht, rfl⟩

/-- C6 witness: a concrete well-formed account (DER `[1, 2, 3]`) restores to
an account with equal id, urls, and thumbprint. -/
theorem credentials_roundtrip_witness :
    Key.wf { signing_algorithm := .es256, inner := ⟨[1, 2, 3]⟩,
             pkcs8_der := [1, 2, 3],
             thumb := base64urlEncode (Jwk.thumb_sha256 ⟨[1, 2, 3]⟩) } ∧
    (base64urlDecode (AccountInner.credentials
        { client := ⟨⟨[], [], []⟩⟩,
          key := { signing_algorithm := .es256, inner := ⟨[1, 2, 3]⟩,
                   pkcs8_der := [1, 2, 3],
                   thumb := base64urlEncode (Jwk.thumb_sha256 ⟨[1, 2, 3]⟩) },
          id := [9] }).key_pkcs8 = some [1, 2, 3] ∧
      ∃ acc', AccountInner.from_credentials (AccountInner.credentials
          { client := ⟨⟨[], [], []⟩⟩,
            key := { signing_algorithm := .es256, inner := ⟨[1, 2, 3]⟩,
                     pkcs8_der := [1, 2, 3],
                     thumb := base64urlEncode (Jwk.thumb_sha256 ⟨[1, 2, 3]⟩) },
            id := [9] }) = .ok acc' ∧
        acc'.id = [9] ∧ acc'.client.urls = ⟨[], [], []⟩ ∧
        acc'.key.thumb = base64urlEncode (Jwk.thumb_sha256 ⟨[1, 2, 3]⟩) ∧
        acc'.key.pkcs8_der = [1, 2, 3]) :=
  ⟨⟨rfl, by decide⟩, credentials_roundtrip
    { client := ⟨⟨[], [], []⟩⟩,
      key := { signing_algorithm := .es256, inner := ⟨[1, 2, 3]⟩,
               pkcs8_der := [1, 2, 3],
               thumb := base64urlEncode (Jwk.thumb_sha256 ⟨[1, 2, 3]⟩) },
      id := [9] } ⟨rfl, by decide⟩⟩

/-- Any `Client::post` only appends to the sent log. -/
theorem client_post_sent_mono (urls : DirectoryUrls) (p : Option Payload)
    (nonce : Option RStr) (signer : SignerKind) (u : RStr) (w : HttpSim) :
    ∃ t, (Client.post urls p nonce signer u w).2.sent = w.sent ++ t := by
  cases nonce with
  | some n =>
    rw [client_post_some]
    exact ⟨_, doRequest_sent _ _⟩
  | none =>
    rw [client_post_none]
    rcases hd : doRequest (headNonceRequest urls) w with ⟨res, w2⟩
    have h2 : w2.sent = w.sent ++ [headNonceRequest urls] := by
      have := doRequest_sent (headNonceRequest urls) w
      rw [hd] at this
      exact this
    cases res with
    | error e => exact ⟨_, h2⟩
    | ok rsp1 =>
      simp only []
      rcases hn : nonce_from_response rsp1 with _ | nn
      · exact ⟨_, h2⟩
      · have h3 := doRequest_sent (joseRequest p signer nn u) w2
        rw [h2, List.append_assoc] at h3
        exact ⟨_, h3⟩

/-- Any `AccountInner::get` only appends to the sent log. -/
theorem get_sent_mono (dec : RStr → Option α) (acc : AccountInner)
    (nonce : Option RStr) (u : RStr) (w : HttpSim) :
    ∃ t, (AccountInner.get dec acc nonce u w).2.2.sent = w.sent ++ t := by
  unfold AccountInner.get AccountInner.post
  rcases hp : Client.post acc.client.urls none nonce (.account acc) u w with ⟨res, w1⟩
  have h1 := client_post_sent_mono acc.client.urls none nonce (.account acc) u w
  rw [hp] at h1
  cases res with
  | error e => exact h1
  | ok rsp => exact h1

/-- The authorization fetch loop only appends to the sent log. -/
theorem authorizationsLoop_sent_mono (acc : AccountInner) (urls : List RStr) :
    ∀ nonce w, ∃ t, (authorizationsLoop acc urls nonce w).2.2.sent = w.sent ++ t := by
  induction urls with
  | nil =>
    intro nonce w
    exact ⟨[], by simp [authorizationsLoop]⟩
  | cons u rest ih =>
    intro nonce w
    unfold authorizationsLoop
    rcases hg : AccountInner.get deserializeAuthorization acc nonce u w with ⟨res, n1, w1⟩
    have h1 := get_sent_mono deserializeAuthorization acc nonce u w
    rw [hg] at h1
    obtain ⟨t1, ht1⟩ := h1
    cases res with
    | error e => exact ⟨t1, ht1⟩
    | ok a =>
      obtain ⟨t2, ht2⟩ := ih n1 w1
      rcases hl : authorizationsLoop acc rest n1 w1 with ⟨res2, n2, w2⟩
      rw [hl] at ht2
      simp only [] at ht1 ht2
      refine ⟨t1 ++ t2, ?_⟩
      simp only []
      rw [hl]
      cases res2 <;> simp only [] <;> rw [ht2, ht1, List.append_assoc]

/-- C2: for each Order operation that sends a signed POST, when the nonce
slot holds a value, each signed POST sends exactly one request whose
protected header carries the previously stored slot value (the slot is
consumed by that POST), and once the POST receives a response the slot is
refilled with that response's extracted `Replay-Nonce` before anything else
happens. For `authorizations` the fetch loop is characterized completely:
the empty loop returns the slot unchanged, every iteration with a stored
nonce sends one POST carrying it and threads the response's extracted
`Replay-Nonce` into the remaining fetches, and the operation's final slot is
the loop's threaded slot. For `certificate` both POSTs are covered: the
`processing`-path refresh of the order URL and the certificate-URL fetch in
the `valid` state. -/
theorem nonce_discipline (o : Order) (w : HttpSim) (n : RStr)
    (h : o.nonce = some n) :
    ((Order.refresh o w).2.2.sent
        = w.sent ++ [joseRequest none (.account o.account) n o.url] ∧
      ∀ rsp rest, w.script = some rsp :: rest →
        ((Order.refresh o w).2.1).nonce = nonce_from_response rsp) ∧
    (∀ csr, (Order.finalize o csr w).2.2.sent
        = w.sent ++ [joseRequest (some (.finalizeReq csr)) (.account o.account) n
            o.state.finalize] ∧
      ∀ rsp rest, w.script = some rsp :: rest →
        ((Order.finalize o csr w).2.1).nonce = nonce_from_response rsp) ∧
    (∀ curl, (Order.set_challenge_ready o curl w).2.2.sent
        = w.sent ++ [joseRequest (some .emptyObj) (.account o.account) n curl] ∧
      ∀ rsp rest, w.script = some rsp :: rest →
        ((Order.set_challenge_ready o curl w).2.1).nonce = nonce_from_response rsp) ∧
    (∀ curl, (Order.challenge o curl w).2.2.sent
        = w.sent ++ [joseRequest none (.account o.account) n curl] ∧
      ∀ rsp rest, w.script = some rsp :: rest →
        ((Order.challenge o curl w).2.1).nonce = nonce_from_response rsp) ∧
    ((∀ nonce w', authorizationsLoop o.account ([] : List RStr) nonce w'
        = (.ok [], nonce, w')) ∧
      (∀ u rest n' w' rsp tail, HttpSim.script w' = some rsp :: tail →
        authorizationsLoop o.account (u :: rest) (some n') w' =
          match Problem.check deserializeAuthorization rsp with
          | .error e => (.error e, nonce_from_response rsp,
              ⟨tail, w'.sent ++ [joseRequest none (.account o.account) n' u]⟩)
          | .ok a =>
            match authorizationsLoop o.account rest (nonce_from_response rsp)
                ⟨tail, w'.sent ++ [joseRequest none (.account o.account) n' u]⟩ with
            | (.error e, n2, w2) => (.error e, n2, w2)
            | (.ok as_, n2, w2) => (.ok (a :: as_), n2, w2)) ∧
      (Order.authorizations o w =
        match authorizationsLoop o.account o.state.authorizations o.nonce w with
        | (r, n', w') => (r, { o with nonce := n' }, w'))) ∧
    (o.state.status = .valid → o.state.error = none →
      ∀ curl, o.state.certificate = some curl →
        (Order.certificate o w).2.2.sent
          = w.sent ++ [joseRequest none (.account o.account) n curl] ∧
        ∀ rsp rest, w.script = some rsp :: rest →
          ((Order.certificate o w).2.1).nonce = nonce_from_response rsp) ∧
    (o.state.status = .processing → ∀ rsp rest, w.script = some rsp :: rest →
      Order.certificate o w =
        match Problem.check deserializeOrderState rsp with
        | .error e => (.error e, { o with nonce := nonce_from_response rsp },
            ⟨rest, w.sent ++ [joseRequest none (.account o.account) n o.url]⟩)
        | .ok st =>
          Order.certFinish { o with nonce := nonce_from_response rsp, state := st }
            ⟨rest, w.sent ++ [joseRequest none (.account o.account) n o.url]⟩) := by
  refine ⟨⟨?_, ?_⟩, fun csr => ⟨?_, ?_⟩, fun curl => ⟨?_, ?_⟩, fun curl => ⟨?_, ?_⟩,
    ⟨?_, ?_, ?_⟩, ?_, ?_⟩
  · unfold Order.refresh
    rw [h, account_post_some]
    rcases hd : doRequest (joseRequest none (.account o.account) n o.url) w
      with ⟨res, w1⟩
    have hs : w1.sent = w.sent ++ [joseRequest none (.account o.account) n o.url] := by
      have := doRequest_sent (joseRequest none (.account o.account) n o.url) w
      rw [hd] at this; exact this
    cases res with
    | error e => simpa using hs
    | ok rsp =>
      rcases hchk : Problem.check deserializeOrderState rsp with e | st <;>
        simpa [hchk] using hs
  · intro rsp rest hscr
    unfold Order.refresh
    rw [h, account_post_some, doRequest_script_cons _ _ _ _ hscr]
    rcases hchk : Problem.check deserializeOrderState rsp with e | st <;> simp [hchk]
  · unfold Order.finalize
    rw [h, account_post_some]
    rcases hd : doRequest (joseRequest (some (.finalizeReq csr)) (.account o.account)
        n o.state.finalize) w with ⟨res, w1⟩
    have hs : w1.sent = w.sent ++
        [joseRequest (some (.finalizeReq csr)) (.account o.account) n
          o.state.finalize] := by
      have := doRequest_sent (joseRequest (some (.finalizeReq csr))
        (.account o.account) n o.state.finalize) w
      rw [hd] at this; exact this
    cases res with
    | error e => simpa using hs
    | ok rsp =>
      rcases hchk : Problem.check deserializeOrderState rsp with e | st <;>
        simpa [hchk] using hs
  · intro rsp rest hscr
    unfold Order.finalize
    rw [h, account_post_some, doRequest_script_cons _ _ _ _ hscr]
    rcases hchk : Problem.check deserializeOrderState rsp with e | st <;> simp [hchk]
  · unfold Order.set_challenge_ready
    rw [h, account_post_some]
    rcases hd : doRequest (joseRequest (some .emptyObj) (.account o.account) n curl) w
      with ⟨res, w1⟩
    have hs : w1.sent = w.sent ++
        [joseRequest (some .emptyObj) (.account o.account) n curl] := by
      have := doRequest_sent (joseRequest (some .emptyObj) (.account o.account)
        n curl) w
      rw [hd] at this; exact this
    cases res with
    | error e => simpa using hs
    | ok rsp =>
      rcases hchk : Problem.check deserializeChallenge rsp with e | st <;>
        simpa [hchk] using hs
  · intro rsp rest hscr
    unfold Order.set_challenge_ready
    rw [h, account_post_some, doRequest_script_cons _ _ _ _ hscr]
    rcases hchk : Problem.check deserializeChallenge rsp with e | st <;> simp [hchk]
  · unfold Order.challenge AccountInner.get
    rw [h, account_post_some]
    rcases hd : doRequest (joseRequest none (.account o.account) n curl) w
      with ⟨res, w1⟩
    have hs : w1.sent = w.sent ++ [joseRequest none (.account o.account) n curl] := by
      have := doRequest_sent (joseRequest none (.account o.account) n curl) w
      rw [hd] at this; exact this
    cases res with
    | error e => simpa using hs
    | ok rsp => simpa using hs
  · intro rsp rest hscr
    unfold Order.challenge AccountInner.get
    rw [h, account_post_some, doRequest_script_cons _ _ _ _ hscr]
  · intro nonce w'
    rfl
  · intro u rest n' w' rsp tail hscr
    simp only [authorizationsLoop]
    unfold AccountInner.get
    rw [account_post_some, doRequest_script_cons _ _ _ _ hscr]
    rcases hchk : Problem.check deserializeAuthorization rsp with e | a <;>
      simp [hchk]
  · rfl
  · intro hv he curl hc
    have hnp : o.state.status ≠ .processing := by rw [hv]; simp
    constructor
    · unfold Order.certificate Order.certRefreshStep Order.certFinish
      rw [if_neg hnp]
      simp only [he, hv, hc]
      rw [h, account_post_some]
      rcases hd : doRequest (joseRequest none (.account o.account) n curl) w
        with ⟨res, w1⟩
      have hs : w1.sent = w.sent ++ [joseRequest none (.account o.account) n curl] := by
        have := doRequest_sent (joseRequest none (.account o.account) n curl) w
        rw [hd] at this; exact this
      cases res with
      | error e => simpa using hs
      | ok rsp =>
        rcases hfr : Problem.from_response rsp with e | body
        · simpa [hfr] using hs
        · rcases hut : string_from_utf8 body with _ | s <;> simpa [hfr, hut] using hs
    · intro rsp rest hscr
      unfold Order.certificate Order.certRefreshStep Order.certFinish
      rw [if_neg hnp]
      simp only [he, hv, hc]
      rw [h, account_post_some, doRequest_script_cons _ _ _ _ hscr]
      rcases hfr : Problem.from_response rsp with e | body
      · simp [hfr]
      · rcases hut : string_from_utf8 body with _ | s <;> simp [hfr, hut]
  · intro hp rsp rest hscr
    unfold Order.certificate Order.certRefreshStep
    rw [if_pos hp, h, account_post_some, doRequest_script_cons _ _ _ _ hscr]
    rcases hchk : Problem.check deserializeOrderState rsp with e | st <;> simp [hchk]

/-- A concrete key for witnesses. -/
def sampleKey : Key :=
  { signing_algorithm := .es256, inner := ⟨[1, 2, 3]⟩, pkcs8_der := [1, 2, 3],
    thumb := [97] }

/-- A concrete account for witnesses. -/
def sampleAccount : AccountInner :=
  { client := ⟨⟨[10], [11], [12]⟩⟩, key := sampleKey, id := [7] }

/-- A concrete order with a stored nonce for witnesses. -/
def sampleOrder : Order :=
  { account := sampleAccount, nonce := some [65], url := [23],
    state := { status := .valid, authorizations := [[20]], finalize := [21],
               certificate := some [22], error := none } }

/-- C2 witness: the sample order holds nonce `[65]`, and a `refresh` against
an empty script sends exactly the one signed POST carrying `[65]`. -/
theorem nonce_discipline_witness :
    sampleOrder.nonce = some [65] ∧
    (Order.refresh sampleOrder ⟨[], []⟩).2.2.sent =
      (HttpSim.mk [] []).sent ++
        [joseRequest none (.account sampleOrder.account) [65] sampleOrder.url] :=
  ⟨rfl, (nonce_discipline sampleOrder ⟨[], []⟩ [65] rfl).1.1⟩

end InstantAcme
